import Mathlib

/-!
Shallow embedding of the `vmm-serde` FFI byte codec (`src/ffi.rs`).

The codec (de)serializes fixed-layout foreign structures, possibly ending
in a flexible array member (FAM), to and from raw byte buffers.  We model
raw memory as `List Nat` (one entry per byte) and a target Rust type `T`
by the data the codec actually consumes:

* `mem::size_of::<T>()`, the static size of the struct, in bytes;
* the `SizeofFamStruct::size_of` oracle, a pure function of the
  instance's raw bytes (in Rust it reads only the struct's own fields,
  which live in the first `staticSize` bytes of the instance);
* the raw bytes of `T::default()`, used by `deserialize_ffi_fam` to
  fill the over-allocated slots before the overlay copy.

An instance of `T` is identified with its `staticSize`-byte raw image;
`ptr::read_unaligned` on a buffer therefore takes the buffer's first
`staticSize` bytes, and `ptr::copy` over a `Vec<T>` becomes list
surgery on the concatenation of the elements' byte images.
-/

namespace VmmSerde

/-- Raw memory: a sequence of bytes, one `Nat` per byte. -/
abbrev Bytes := List Nat

/-- The data the codec uses about a target type `T`: its static size
`mem::size_of::<T>()`, its `SizeofFamStruct::size_of` oracle (a pure
function of the instance's raw bytes), and the raw byte image of
`T::default()`. -/
structure FfiType where
  staticSize : Nat
  size_of : Bytes → Nat
  dflt : Bytes

/-- Model of `ptr::read_unaligned(data.as_ptr() as *const T)`: the instance
whose raw image is the first `staticSize` bytes of the buffer. -/
def read_unaligned (T : FfiType) (data : Bytes) : Bytes :=
  data.take T.staticSize

/-- Model of `serialize_ffi` (src/ffi.rs lines 29-39).  `mem` is the raw
memory at the instance's address: the struct's `staticSize` bytes followed
by whatever bytes of the caller's allocation lie contiguously beyond it
(the in-memory FAM tail).  The oracle is evaluated on the instance - the
first `staticSize` bytes - and exactly that many bytes are copied out. -/
def serialize_ffi (T : FfiType) (mem : Bytes) : Bytes :=
  mem.take (T.size_of (read_unaligned T mem))

/-- Model of `deserialize_ffi` (src/ffi.rs lines 42-52): the buffer length
must equal the static size exactly, and on success the instance is the
unaligned reinterpretation of the buffer's bytes. -/
def deserialize_ffi (T : FfiType) (data : Bytes) : Except (Nat × Nat) Bytes :=
  if data.length ≠ T.staticSize then
    .error (T.staticSize, data.length)
  else
    .ok (read_unaligned T data)

/-- Split a byte sequence into `n` consecutive chunks of `size` bytes
each: the byte images of the `n` elements of a contiguous `Vec<T>`. -/
def chunkList (size : Nat) : Nat → Bytes → List Bytes
  | 0, _ => []
  | n+1, l => l.take size :: chunkList size n (l.drop size)

/-- Model of `deserialize_ffi_fam` (src/ffi.rs lines 55-90).  The branch
structure mirrors the source: reject buffers shorter than the header;
an oracle equal to the static size demands an exact-length buffer and
yields a single element; otherwise the oracle must equal the buffer
length, `entries = ceil(size_of / staticSize)` default-initialized slots
are allocated, and `ptr::copy` overlays the buffer's first `size_of`
bytes across their contiguous memory (`ptr::copy(data, &mut buf[0],
obj.size_of())`), leaving the rest of the default bytes in place. -/
def deserialize_ffi_fam (T : FfiType) (data : Bytes) : Except (Nat × Nat) (List Bytes) :=
  if data.length < T.staticSize then
    .error (T.staticSize, data.length)
  else if T.size_of (read_unaligned T data) = T.staticSize then
    if data.length ≠ T.staticSize then
      .error (T.staticSize, data.length)
    else
      .ok [read_unaligned T data]
  else if T.size_of (read_unaligned T data) ≠ data.length then
    .error (T.size_of (read_unaligned T data), data.length)
  else
    .ok (chunkList T.staticSize
      ((T.size_of (read_unaligned T data) + T.staticSize - 1) / T.staticSize)
      (data.take (T.size_of (read_unaligned T data)) ++
        (List.replicate ((T.size_of (read_unaligned T data) + T.staticSize - 1) / T.staticSize)
            T.dflt).flatten.drop (T.size_of (read_unaligned T data))))

/-- Model of the `size_of` body generated by `serde_ffi_fam_impl`
(src/ffi.rs lines 17-26): `(self.field as usize) * size_of::<entry>()
+ size_of::<Self>()`, with `usize` arithmetic wrapping modulo `2 ^ 64`
on the modelled 64-bit platform. -/
def serde_ffi_fam_size_of (count entrySize structSize : Nat) : Nat :=
  (count * entrySize + structSize) % 2 ^ 64

/-! Concrete example types, mirroring the `kvm_msrs`-style structures of
the crate's tests: an 8-byte header whose first byte is the element
count, followed by fixed-size elements. -/

/-- Example FAM type: 8-byte header, count in the first byte, 8-byte
elements (the spec's concrete scenario). -/
def kvmMsrs : FfiType :=
  { staticSize := 8
    size_of := fun inst => inst.headI * 8 + 8
    dflt := List.replicate 8 0 }

/-- A valid 24-byte buffer for `kvmMsrs`: count 2, two 8-byte elements. -/
def msrsBuf : Bytes :=
  [2, 0, 0, 0, 0, 0, 0, 0, 1, 1, 1, 1, 1, 1, 1, 1, 2, 2, 2, 2, 2, 2, 2, 2]

/-- Example FAM type with 3-byte elements, so that a valid buffer length
is not a multiple of the 8-byte static size and the last allocated slot
has a nonempty default tail.  The default image is made distinctive. -/
def famOdd : FfiType :=
  { staticSize := 8
    size_of := fun inst => inst.headI * 3 + 8
    dflt := [10, 11, 12, 13, 14, 15, 16, 17] }

/-- A valid 17-byte buffer for `famOdd`: count 3, three 3-byte elements. -/
def oddBuf : Bytes :=
  [3, 0, 0, 0, 0, 0, 0, 0, 21, 22, 23, 24, 25, 26, 27, 28, 29]

/-- Example non-FAM type: static size 4, constant oracle. -/
def fixedExample : FfiType :=
  { staticSize := 4
    size_of := fun _ => 4
    dflt := [0, 0, 0, 0] }

/-! Helper lemmas about `chunkList` and replicated defaults. -/

theorem chunkList_length (size n : Nat) (l : Bytes) : (chunkList size n l).length = n := by
  induction n generalizing l with
  | zero => rfl
  | succ k ih => simp [chunkList, ih]

theorem chunkList_flatten (size n : Nat) (l : Bytes) :
    (chunkList size n l).flatten = l.take (n * size) := by
  induction n generalizing l with
  | zero => simp [chunkList]
  | succ k ih =>
      simp only [chunkList, List.flatten_cons, ih]
      rw [Nat.succ_mul, Nat.add_comm (k * size) size, List.take_add]

theorem length_flatten_replicate (n : Nat) (l : Bytes) :
    (List.replicate n l).flatten.length = n * l.length := by
  induction n with
  | zero => simp
  | succ k ih => simp [List.replicate_succ, ih, Nat.succ_mul]; omega

theorem flatten_replicate_drop (k : Nat) (l : Bytes) (m : Nat) (h : k * l.length ≤ m) :
    (List.replicate (k+1) l).flatten.drop m = l.drop (m - k * l.length) := by
  induction k generalizing m with
  | zero => simp
  | succ j ih =>
      have hlen : l.length ≤ m := by
        have : l.length ≤ (j+1) * l.length := Nat.le_mul_of_pos_left _ (Nat.succ_pos j)
        omega
      rw [List.replicate_succ, List.flatten_cons, List.drop_append_eq_append_drop,
        List.drop_eq_nil_of_le hlen, List.nil_append, ih (m - l.length) (by
          have hs : (j+1) * l.length = j * l.length + l.length := Nat.succ_mul j l.length
          omega)]
      congr 1
      have hs : (j+1) * l.length = j * l.length + l.length := Nat.succ_mul j l.length
      omega

theorem le_ceil_mul (len s : Nat) (hs : 0 < s) : len ≤ (len + s - 1) / s * s := by
  have h := Nat.lt_div_mul_add (a := len + s - 1) hs
  omega

/-- On the overlay branch (oracle different from the static size but equal
to the buffer length), `deserialize_ffi_fam` returns the chunked overlay:
the buffer's bytes followed by the untouched tail of the replicated
default images, split into `ceil(len / staticSize)` slots. -/
theorem deserialize_ffi_fam_overlay (T : FfiType) (data : Bytes)
    (hge : T.staticSize ≤ data.length)
    (h1 : T.size_of (read_unaligned T data) ≠ T.staticSize)
    (h2 : T.size_of (read_unaligned T data) = data.length) :
    deserialize_ffi_fam T data =
      .ok (chunkList T.staticSize ((data.length + T.staticSize - 1) / T.staticSize)
        (data ++ (List.replicate ((data.length + T.staticSize - 1) / T.staticSize)
            T.dflt).flatten.drop data.length)) := by
  unfold deserialize_ffi_fam
  rw [if_neg (Nat.not_lt.mpr hge), if_neg h1, if_neg (fun hc => hc h2), h2, List.take_length]

theorem ceil_pos (len s : Nat) (hs : 0 < s) (hlen : s ≤ len) :
    ∃ k, (len + s - 1) / s = k + 1 := by
  have hle := le_ceil_mul len s hs
  refine ⟨(len + s - 1) / s - 1, ?_⟩
  rcases Nat.eq_zero_or_pos ((len + s - 1) / s) with h0 | hpos
  · rw [h0] at hle
    simp at hle
    omega
  · omega

/-- C5: `serialize_ffi` is total (it never fails); given an instance whose
allocation really holds its `size_of` bytes, the returned buffer's length
is exactly the oracle value, and the buffer followed by the rest of the
source memory reassembles the source, i.e. the buffer is precisely the
first `size_of` raw bytes at the instance's address.  The model is a pure
function of `mem`, so the source instance is not mutated. -/
theorem serialize_ffi_spec (T : FfiType) (mem : Bytes)
    (h : T.size_of (read_unaligned T mem) ≤ mem.length) :
    (serialize_ffi T mem).length = T.size_of (read_unaligned T mem) ∧
    serialize_ffi T mem ++ mem.drop (T.size_of (read_unaligned T mem)) = mem := by
  constructor
  · rw [serialize_ffi, List.length_take]
    omega
  · exact List.take_append_drop _ mem

/-- Witness for C5 on the concrete 24-byte `kvmMsrs` buffer. -/
theorem serialize_ffi_spec_witness :
    (serialize_ffi kvmMsrs msrsBuf).length = kvmMsrs.size_of (read_unaligned kvmMsrs msrsBuf) ∧
    serialize_ffi kvmMsrs msrsBuf ++
        msrsBuf.drop (kvmMsrs.size_of (read_unaligned kvmMsrs msrsBuf)) = msrsBuf :=
  serialize_ffi_spec kvmMsrs msrsBuf (by decide)

/-- C6: `deserialize_ffi` fails exactly when the buffer length differs from
the static size, returning the pair (static size, actual length) and
nothing else; on an exact-length buffer it returns the instance whose raw
image is the buffer itself. -/
theorem deserialize_ffi_spec (T : FfiType) (data : Bytes) :
    (data.length ≠ T.staticSize → deserialize_ffi T data = .error (T.staticSize, data.length)) ∧
    (data.length = T.staticSize → deserialize_ffi T data = .ok data) := by
  constructor
  · intro h
    rw [deserialize_ffi, if_pos h]
  · intro h
    rw [deserialize_ffi, if_neg (fun hc => hc h), read_unaligned, ← h, List.take_length]

/-- Witness for C6: a 9-byte buffer is rejected with (4, 9) by the 4-byte
`fixedExample`, and a 4-byte buffer decodes to itself. -/
theorem deserialize_ffi_spec_witness :
    deserialize_ffi fixedExample (List.replicate 9 0) = .error (4, 9) ∧
    deserialize_ffi fixedExample [5, 6, 7, 8] = .ok [5, 6, 7, 8] :=
  ⟨(deserialize_ffi_spec fixedExample (List.replicate 9 0)).1 (by decide),
   (deserialize_ffi_spec fixedExample [5, 6, 7, 8]).2 (by decide)⟩

/-- C7: on a buffer strictly shorter than the static size,
`deserialize_ffi_fam` fails with (static size, actual length).  The
theorem is stated for an arbitrary oracle `f` and default image `d`, so
the result does not depend on them: no instance is read from the buffer
and the oracle is never consulted. -/
theorem deserialize_ffi_fam_short (s : Nat) (f : Bytes → Nat) (d : Bytes) (data : Bytes)
    (h : data.length < s) :
    deserialize_ffi_fam ⟨s, f, d⟩ data = .error (s, data.length) := by
  rw [deserialize_ffi_fam, if_pos h]

/-- Witness for C7, the spec's own scenario: a 4-byte buffer against the
8-byte-header FAM type fails with LengthMismatch (8, 4). -/
theorem deserialize_ffi_fam_short_witness :
    deserialize_ffi_fam ⟨8, fun inst => inst.headI * 8 + 8, List.replicate 8 0⟩
      [0, 0, 0, 0] = .error (8, 4) :=
  deserialize_ffi_fam_short 8 (fun inst => inst.headI * 8 + 8) (List.replicate 8 0)
    [0, 0, 0, 0] (by decide)

/-- C2: when the buffer is at least header-sized but the decoded header's
oracle value differs from both the static size and the buffer length,
`deserialize_ffi_fam` fails with (oracle value, actual length); the
`Except.error` result carries no partial decode. -/
theorem deserialize_ffi_fam_size_mismatch (T : FfiType) (data : Bytes)
    (hge : T.staticSize ≤ data.length)
    (h1 : T.size_of (read_unaligned T data) ≠ T.staticSize)
    (h2 : T.size_of (read_unaligned T data) ≠ data.length) :
    deserialize_ffi_fam T data = .error (T.size_of (read_unaligned T data), data.length) := by
  rw [deserialize_ffi_fam, if_neg (Nat.not_lt.mpr hge), if_neg h1, if_pos h2]

/-- Witness for C2: a `kvmMsrs` buffer claiming count 1 (oracle 16) but
only 9 bytes long fails with SizeMismatch (16, 9). -/
theorem deserialize_ffi_fam_size_mismatch_witness :
    deserialize_ffi_fam kvmMsrs [1, 0, 0, 0, 0, 0, 0, 0, 0] =
      .error (kvmMsrs.size_of (read_unaligned kvmMsrs [1, 0, 0, 0, 0, 0, 0, 0, 0]), 9) :=
  deserialize_ffi_fam_size_mismatch kvmMsrs [1, 0, 0, 0, 0, 0, 0, 0, 0]
    (by decide) (by decide) (by decide)

/-- C3: fixed-type round trip.  For an instance of a non-FAM type - one
whose oracle value equals the static size - whose raw image has exactly
the static length, deserializing its serialization succeeds and returns
the instance byte for byte. -/
theorem serde_roundtrip_fixed (T : FfiType) (x : Bytes)
    (hlen : x.length = T.staticSize) (hsz : T.size_of x = T.staticSize) :
    deserialize_ffi T (serialize_ffi T x) = .ok x := by
  have hx : read_unaligned T x = x := by
    rw [read_unaligned, ← hlen, List.take_length]
  have hser : serialize_ffi T x = x := by
    rw [serialize_ffi, hx, hsz, ← hlen, List.take_length]
  rw [hser, deserialize_ffi, if_neg (fun hc => hc hlen), hx]

/-- Witness for C3 on a concrete 4-byte `fixedExample` instance. -/
theorem serde_roundtrip_fixed_witness :
    deserialize_ffi fixedExample (serialize_ffi fixedExample [5, 6, 7, 8]) = .ok [5, 6, 7, 8] :=
  serde_roundtrip_fixed fixedExample [5, 6, 7, 8] (by decide) (by decide)

/-- C8: the `serde_ffi_fam_impl` oracle is a pure total function of the
count field: its result is always a valid `usize`; whenever
`count * elementSize + staticSize` fits the addressable range the result
is exactly that value; and a zero count yields exactly the static size.
A count large enough to overflow still yields a (wrapped) result rather
than an error. -/
theorem serde_ffi_fam_size_of_spec (count entrySize structSize : Nat) :
    serde_ffi_fam_size_of count entrySize structSize < 2 ^ 64 ∧
    (count * entrySize + structSize < 2 ^ 64 →
      serde_ffi_fam_size_of count entrySize structSize = count * entrySize + structSize) ∧
    (structSize < 2 ^ 64 → serde_ffi_fam_size_of 0 entrySize structSize = structSize) := by
  refine ⟨Nat.mod_lt _ (by norm_num), fun h => Nat.mod_eq_of_lt h, fun h => ?_⟩
  rw [serde_ffi_fam_size_of, Nat.zero_mul, Nat.zero_add, Nat.mod_eq_of_lt h]

/-- Witness for C8: count 2 with 8-byte elements and an 8-byte header
yields 24 bytes; count 0 yields the static size 8. -/
theorem serde_ffi_fam_size_of_spec_witness :
    serde_ffi_fam_size_of 2 8 8 = 2 * 8 + 8 ∧ serde_ffi_fam_size_of 0 8 8 = 8 :=
  ⟨(serde_ffi_fam_size_of_spec 2 8 8).2.1 (by norm_num),
   (serde_ffi_fam_size_of_spec 0 8 8).2.2 (by norm_num)⟩

/-- C4: when the decoded header's oracle value equals the static size
(count field zero), `deserialize_ffi_fam` behaves exactly like
`deserialize_ffi` up to wrapping the instance in a one-element list: it
succeeds with `[instance]` on an exact-length buffer and fails with the
identical (expected, actual) pair otherwise - in particular on a buffer
one byte longer than the static size. -/
theorem deserialize_ffi_fam_fixed_equiv (T : FfiType) (data : Bytes)
    (h : T.staticSize ≤ data.length → T.size_of (read_unaligned T data) = T.staticSize) :
    deserialize_ffi_fam T data = (deserialize_ffi T data).map (fun x => [x]) := by
  by_cases hlt : data.length < T.staticSize
  · rw [deserialize_ffi_fam, if_pos hlt, deserialize_ffi, if_pos (by omega)]
    rfl
  · have hor := h (Nat.not_lt.mp hlt)
    by_cases hne : data.length = T.staticSize
    · rw [deserialize_ffi_fam, if_neg hlt, if_pos hor, if_neg (fun hc => hc hne),
        deserialize_ffi, if_neg (fun hc => hc hne)]
      rfl
    · rw [deserialize_ffi_fam, if_neg hlt, if_pos hor, if_pos hne, deserialize_ffi, if_pos hne]
      rfl

/-- Witness for C4: a zero-count `kvmMsrs` buffer one byte longer than the
8-byte header makes both decoders fail with the same pair (8, 9). -/
theorem deserialize_ffi_fam_fixed_equiv_witness :
    deserialize_ffi_fam kvmMsrs [0, 0, 0, 0, 0, 0, 0, 0, 9] =
      (deserialize_ffi kvmMsrs [0, 0, 0, 0, 0, 0, 0, 0, 9]).map (fun x => [x]) :=
  deserialize_ffi_fam_fixed_equiv kvmMsrs [0, 0, 0, 0, 0, 0, 0, 0, 9] (fun _ => rfl)

/-- C9: every error of either decoder reports the actual buffer length in
its second component, and its first component is either the static size
or the oracle value of the decoded header. -/
theorem deserialize_error_shape (T : FfiType) (data : Bytes) (e : Nat × Nat) :
    (deserialize_ffi T data = .error e → e.2 = data.length ∧ e.1 = T.staticSize) ∧
    (deserialize_ffi_fam T data = .error e →
      e.2 = data.length ∧
        (e.1 = T.staticSize ∨ e.1 = T.size_of (read_unaligned T data))) := by
  constructor
  · intro h
    rw [deserialize_ffi] at h
    split at h
    · injection h with h2
      rw [← h2]
      exact ⟨rfl, rfl⟩
    · exact Except.noConfusion h
  · intro h
    rw [deserialize_ffi_fam] at h
    split_ifs at h
    all_goals
      first
        | exact Except.noConfusion h
        | (injection h with h2; rw [← h2]; exact ⟨rfl, Or.inl rfl⟩)
        | (injection h with h2; rw [← h2]; exact ⟨rfl, Or.inr rfl⟩)

/-- Witness for C9: the empty buffer fails both decoders of the 4-byte
`fixedExample` with the pair (4, 0). -/
theorem deserialize_error_shape_witness :
    (((4, 0) : Nat × Nat).2 = ([] : Bytes).length ∧
      ((4, 0) : Nat × Nat).1 = fixedExample.staticSize) ∧
    (((4, 0) : Nat × Nat).2 = ([] : Bytes).length ∧
      (((4, 0) : Nat × Nat).1 = fixedExample.staticSize ∨
        ((4, 0) : Nat × Nat).1 = fixedExample.size_of (read_unaligned fixedExample []))) :=
  ⟨(deserialize_error_shape fixedExample [] (4, 0)).1 rfl,
   (deserialize_error_shape fixedExample [] (4, 0)).2 rfl⟩

/-- C1: on a buffer longer than the header whose length matches the
decoded header's oracle value, `deserialize_ffi_fam` succeeds with
exactly `ceil(size_of / staticSize)` elements; the first element is the
unaligned reinterpretation of the buffer's first `staticSize` bytes, and
the concatenated raw bytes of the elements, truncated to the oracle
size, reproduce the input buffer exactly. -/
theorem deserialize_ffi_fam_fam_ok (T : FfiType) (data : Bytes)
    (hs : 0 < T.staticSize) (hd : T.dflt.length = T.staticSize)
    (hge : T.staticSize ≤ data.length) (hne : data.length ≠ T.staticSize)
    (hsz : T.size_of (read_unaligned T data) = data.length) :
    ∃ l, deserialize_ffi_fam T data = .ok l ∧
      l.length = (T.size_of (read_unaligned T data) + T.staticSize - 1) / T.staticSize ∧
      l.head? = some (read_unaligned T data) ∧
      l.flatten.take (T.size_of (read_unaligned T data)) = data := by
  have h1 : T.size_of (read_unaligned T data) ≠ T.staticSize := by
    rw [hsz]
    exact hne
  have hle := le_ceil_mul data.length T.staticSize hs
  obtain ⟨k, hk⟩ := ceil_pos data.length T.staticSize hs hge
  refine ⟨_, deserialize_ffi_fam_overlay T data hge h1 hsz, ?_, ?_, ?_⟩
  · rw [hsz, chunkList_length]
  · rw [hk]
    simp only [chunkList, List.head?_cons]
    rw [List.take_append_of_le_length hge]
    rfl
  · rw [hsz, chunkList_flatten, List.take_take, Nat.min_eq_left hle,
      List.take_append_of_le_length (Nat.le_refl data.length), List.take_length]

/-- Witness for C1 on the spec's concrete scenario: the 24-byte count-2
`kvmMsrs` buffer decodes to a 3-slot list headed by the 8-byte header
image, whose flattened bytes reproduce the buffer. -/
theorem deserialize_ffi_fam_fam_ok_witness :
    ∃ l, deserialize_ffi_fam kvmMsrs msrsBuf = .ok l ∧
      l.length = (kvmMsrs.size_of (read_unaligned kvmMsrs msrsBuf) + kvmMsrs.staticSize - 1) /
        kvmMsrs.staticSize ∧
      l.head? = some (read_unaligned kvmMsrs msrsBuf) ∧
      l.flatten.take (kvmMsrs.size_of (read_unaligned kvmMsrs msrsBuf)) = msrsBuf :=
  deserialize_ffi_fam_fam_ok kvmMsrs msrsBuf (by decide) (by decide) (by decide)
    (by decide) (by decide)

/-- C10: in a multi-slot success of `deserialize_ffi_fam`, the raw bytes
of the returned list beyond the input buffer's length - the tail of the
last allocated slot up to the whole-struct boundary - are exactly the
corresponding bytes of the default-constructed instance, untouched by
the overlay copy. -/
theorem deserialize_ffi_fam_padding (T : FfiType) (data : Bytes)
    (hs : 0 < T.staticSize) (hd : T.dflt.length = T.staticSize)
    (hge : T.staticSize ≤ data.length) (hne : data.length ≠ T.staticSize)
    (hsz : T.size_of (read_unaligned T data) = data.length) :
    ∃ l, deserialize_ffi_fam T data = .ok l ∧
      l.flatten.drop data.length =
        T.dflt.drop (data.length -
          ((data.length + T.staticSize - 1) / T.staticSize - 1) * T.staticSize) := by
  have h1 : T.size_of (read_unaligned T data) ≠ T.staticSize := by
    rw [hsz]
    exact hne
  have hle := le_ceil_mul data.length T.staticSize hs
  obtain ⟨k, hk⟩ := ceil_pos data.length T.staticSize hs hge
  refine ⟨_, deserialize_ffi_fam_overlay T data hge h1 hsz, ?_⟩
  have hml : (data ++ (List.replicate ((data.length + T.staticSize - 1) / T.staticSize)
      T.dflt).flatten.drop data.length).length =
      (data.length + T.staticSize - 1) / T.staticSize * T.staticSize := by
    rw [List.length_append, List.length_drop, length_flatten_replicate, hd]
    omega
  have hks : k * T.dflt.length ≤ data.length := by
    rw [hd]
    have h2 : (k + 1) * T.staticSize ≤ data.length + T.staticSize - 1 := by
      rw [← hk]
      exact Nat.div_mul_le_self _ _
    have h3 : (k + 1) * T.staticSize = k * T.staticSize + T.staticSize :=
      Nat.succ_mul k T.staticSize
    omega
  have hflat := flatten_replicate_drop k T.dflt data.length hks
  rw [chunkList_flatten, List.take_of_length_le (le_of_eq hml),
    List.drop_append_eq_append_drop, List.drop_eq_nil_of_le (Nat.le_refl data.length),
    Nat.sub_self, List.drop_zero, List.nil_append, hk, Nat.add_sub_cancel, hflat, hd]

/-- Witness for C10 on `famOdd`: the 17-byte count-3 buffer occupies three
8-byte slots, and the flattened result's 7 bytes beyond the buffer are
the default image's bytes 1 through 7. -/
theorem deserialize_ffi_fam_padding_witness :
    ∃ l, deserialize_ffi_fam famOdd oddBuf = .ok l ∧
      l.flatten.drop oddBuf.length =
        famOdd.dflt.drop (oddBuf.length -
          ((oddBuf.length + famOdd.staticSize - 1) / famOdd.staticSize - 1) *
            famOdd.staticSize) :=
  deserialize_ffi_fam_padding famOdd oddBuf (by decide) (by decide) (by decide)
    (by decide) (by decide)

end VmmSerde
